import Mathlib

/-!
Verification development for the Docker-Update reconciliation scripts
(`Docker-Update.py` and `listener.py`), as a shallow embedding.

The Python file defines `update_container` twice; the second definition
(lines 326-393) shadows the first, so the second one is the behaviour the
program actually has.  Both are relevant: `classify` below embeds the
topology branch conditions of the first (shadowed) definition, while
`update_container` embeds the second (effective) definition.

External, fallible calls of the docker client (image-id lookup, pull,
stop, remove, run, prune) are modelled by an oracle record `Ext` giving
each call's outcome; every call the program issues is recorded in an
action trace.  `time.time()` is sampled once per workload in the source;
it is modelled as a single per-pass timestamp, on which none of the
verified properties depend.
-/

namespace DockerUpdate

/-- Notification event types, from `format_telegram_message`. -/
inductive Event where
  | dry_run
  | update
  | up_to_date
  | error
  | cleanup
  | info
  deriving DecidableEq, Repr

/-- The keyword arguments of the `client.containers.run` call in the
effective `update_container` (lines 378-386).  The source passes
`ports`, `volumes` and `environment` verbatim from the old container's
attributes, sets `restart_policy={"Name": "always"}`, and passes no
network argument (modelled as `network = none`). -/
structure RunSpec where
  image : String
  name : String
  restartPolicy : String
  ports : List (String × String)
  volumes : List String
  env : List String
  network : Option String
  deriving DecidableEq, Repr

/-- One externally visible call or log emitted by the engine.  The
`serviceUpdate`, `composePull` and `composeUp` subprocess calls exist
only in the first (shadowed) `update_container`; the effective program
never emits them. -/
inductive Action where
  | logSkip (name : String)
  | notify (name : Option String) (event : Event) (image : Option String)
      (extra : Option String)
  | pullImage (repo tag : String)
  | stopContainer (name : String)
  | removeContainer (name : String)
  | runContainer (spec : RunSpec)
  | pruneImages
  | serviceUpdate (image service : String)
  | composePull (project service : String)
  | composeUp (project service : String)
  deriving DecidableEq, Repr

/-- Topology of a workload, as the first (shadowed) `update_container`
distinguishes them. -/
inductive Topology where
  | swarm (stack : String)
  | compose (project service : String)
  | standalone
  deriving DecidableEq, Repr

/-- A running container as the script reads it: name, image tags,
labels, and the runtime attributes used for standalone recreation. -/
structure Container where
  name : String
  imageTags : List String
  labels : List (String × String)
  portBindings : List (String × String)
  env : List String
  mounts : List String
  restartPolicy : String
  networkMode : String

/-- Outcomes of the fallible docker-client calls made for one container:
`container.image.id` retrieval, `client.images.pull` (keyed by
repository; the source always passes `tag="latest"`), `container.stop`,
`container.remove`, and `client.containers.run`. -/
structure Ext where
  imageIdResult : Except String String
  pullResult : String → Except String String
  stopResult : Except String Unit
  removeResult : Except String Unit
  runResult : Except String Unit

/-- The configuration the engine reads: `CHECK_INTERVAL` and
`SKIP_CONTAINERS`. -/
structure Config where
  checkInterval : Int
  skipContainers : List String

/-- Python's `s.split(":")[0]`: the part of `s` before the first colon
(the whole string when it has no colon). -/
def splitRepo (s : String) : String :=
  String.mk (s.data.takeWhile (fun ch => ch ≠ ':'))

/-- Python truthiness of `labels.get(key)`: a missing key or an empty
string both count as absent. -/
def truthy : Option String → Option String
  | some s => if s.isEmpty then none else some s
  | none => none

/-- The topology branch conditions of the first (shadowed)
`update_container` definition (lines 244, 264, 289): stack label first,
then both compose labels, else standalone. -/
def classify (labels : List (String × String)) : Topology :=
  match truthy (labels.lookup "com.docker.stack.namespace") with
  | some s => .swarm s
  | none =>
    match truthy (labels.lookup "com.docker.compose.project"),
        truthy (labels.lookup "com.docker.compose.service") with
    | some p, some s => .compose p s
    | _, _ => .standalone

/-- The rate-limit test (line 335): `name in last_check_time and
now - last_check_time[name] < CFG["check_interval"]`. -/
def rateLimited (cfg : Config) (now : Int) (st : List (String × Int))
    (name : String) : Bool :=
  match st.lookup name with
  | some t => decide (now - t < cfg.checkInterval)
  | none => false

/-- The timestamp write `last_check_time[name] = now` (line 337); a
python dict assignment overwrites, which first-match `List.lookup`
semantics reproduce by prepending. -/
def record (st : List (String × Int)) (name : String) (now : Int) :
    List (String × Int) :=
  (name, now) :: st

/-- Shorthand for `notify(name, "error", extra=detail)`. -/
def notifyErr (name detail : String) : Action :=
  .notify (some name) .error none (some detail)

/-- The staleness test of line 359, `new_image_id == current_image`,
read as a drift decision: stale when the pulled image id differs from
the current one. -/
def isStale (newImageId currentImage : String) : Bool :=
  !(newImageId == currentImage)

/-- The effective `update_container` (the second definition, lines
326-393).  Returns the updated `last_check_time` map and the trace of
calls and notifications issued for this container. -/
def update_container (cfg : Config) (dryRun : Bool) (e : Ext) (now : Int)
    (st : List (String × Int)) (c : Container) :
    List (String × Int) × List Action :=
  if rateLimited cfg now st c.name then (st, [])
  else
    let st := record st c.name now
    if c.name ∈ cfg.skipContainers then (st, [.logSkip c.name])
    else
      match e.imageIdResult with
      | .error m => (st, [notifyErr c.name ("Unable to retrieve image ID: " ++ m)])
      | .ok currentImage =>
        match c.imageTags.head? with
        | none =>
          -- `container.image.tags[0]` raises IndexError inside the pull
          -- try-block before any pull call is issued.
          (st, [notifyErr c.name "Image pull failed: list index out of range"])
        | some tag0 =>
          let repo := splitRepo tag0
          match e.pullResult repo with
          | .error m =>
            (st, [.pullImage repo "latest",
              notifyErr c.name ("Image pull failed: " ++ m)])
          | .ok newImageId =>
            if newImageId == currentImage then
              (st, [.pullImage repo "latest",
                .notify (some c.name) .up_to_date none none])
            else if dryRun then
              (st, [.pullImage repo "latest",
                .notify (some c.name) .dry_run (some newImageId) none])
            else
              match e.stopResult with
              | .error m =>
                (st, [.pullImage repo "latest", .stopContainer c.name,
                  notifyErr c.name ("Container removal failure: " ++ m)])
              | .ok _ =>
                match e.removeResult with
                | .error m =>
                  (st, [.pullImage repo "latest", .stopContainer c.name,
                    .removeContainer c.name,
                    notifyErr c.name ("Container removal failure: " ++ m)])
                | .ok _ =>
                  let spec : RunSpec :=
                    { image := repo ++ ":latest", name := c.name,
                      restartPolicy := "always", ports := c.portBindings,
                      volumes := c.mounts, env := c.env, network := none }
                  match e.runResult with
                  | .error m =>
                    (st, [.pullImage repo "latest", .stopContainer c.name,
                      .removeContainer c.name, .runContainer spec,
                      notifyErr c.name ("Container deployment failure: " ++ m)])
                  | .ok _ =>
                    (st, [.pullImage repo "latest", .stopContainer c.name,
                      .removeContainer c.name, .runContainer spec,
                      .notify (some c.name) .update (some newImageId) none])

/-- The error, if any, that `update_container` catches for this
container: `none` when the container is rate-limited, skipped,
up-to-date, handled in dry-run, or fully updated; otherwise the
diagnostic text of the step that failed. -/
def ucErr (cfg : Config) (dryRun : Bool) (e : Ext) (now : Int)
    (st : List (String × Int)) (c : Container) : Option String :=
  if rateLimited cfg now st c.name then none
  else if c.name ∈ cfg.skipContainers then none
  else
    match e.imageIdResult with
    | .error m => some ("Unable to retrieve image ID: " ++ m)
    | .ok currentImage =>
      match c.imageTags.head? with
      | none => some "Image pull failed: list index out of range"
      | some tag0 =>
        match e.pullResult (splitRepo tag0) with
        | .error m => some ("Image pull failed: " ++ m)
        | .ok newImageId =>
          if newImageId == currentImage then none
          else if dryRun then none
          else
            match e.stopResult with
            | .error m => some ("Container removal failure: " ++ m)
            | .ok _ =>
              match e.removeResult with
              | .error m => some ("Container removal failure: " ++ m)
              | .ok _ =>
                match e.runResult with
                | .error m => some ("Container deployment failure: " ++ m)
                | .ok _ => none

/-- `cleanup_unused_images` (lines 400-411): issues one prune call; on
success notifies `cleanup` only when the reclaimed byte count is
positive; an exception is caught and notified as an error.  The source
formats the payload as megabytes for display; the raw byte count stands
in for it here. -/
def cleanup_unused_images (pruneRes : Except String Nat) : List Action :=
  match pruneRes with
  | .error m => [.pruneImages, .notify (some "Docker Images") .error none (some m)]
  | .ok reclaimed =>
    if reclaimed > 0 then
      [.pruneImages,
        .notify (some "Docker Images") .cleanup none (some (toString reclaimed))]
    else
      [.pruneImages]

/-- The per-container loop of one pass of `main` (lines 418-420),
threading the rate-limit map and concatenating traces. -/
def runContainers (cfg : Config) (dryRun : Bool) (now : Int)
    (st : List (String × Int)) (items : List (Container × Ext)) :
    List (String × Int) × List Action :=
  match items with
  | [] => (st, [])
  | (c, e) :: rest =>
    let r := update_container cfg dryRun e now st c
    let r' := runContainers cfg dryRun now r.1 rest
    (r'.1, r.2 ++ r'.2)

/-- One full pass of `main`: the container loop followed by the
unconditional `cleanup_unused_images()` call (line 422). -/
def runPass (cfg : Config) (dryRun : Bool) (now : Int)
    (st : List (String × Int)) (items : List (Container × Ext))
    (pruneRes : Except String Nat) :
    List (String × Int) × List Action :=
  let r := runContainers cfg dryRun now st items
  (r.1, r.2 ++ cleanup_unused_images pruneRes)

/-- Actions that mutate a container or delegate mutation to an
orchestrator/compose subprocess; pulling images and pruning image
layers are image-store operations, not container mutations. -/
def mutatesContainers : Action → Bool
  | .stopContainer _ => true
  | .removeContainer _ => true
  | .runContainer _ => true
  | .serviceUpdate _ _ => true
  | .composePull _ _ => true
  | .composeUp _ _ => true
  | _ => false

/-- A polled Telegram message as `listener.py` reads it: `msg.get("chat",
{}).get("id")` and `msg.get("text", "")`, either key possibly absent. -/
structure TgMessage where
  chatId : Option Int
  text : Option String
  deriving DecidableEq, Repr

/-- One entry of the `getUpdates` result: `u["update_id"]` and the
possibly-absent `u.get("message", {})`. -/
structure TgUpdate where
  updateId : Int
  message : Option TgMessage
  deriving DecidableEq, Repr

/-- Externally visible steps of the listener loop body.  The text of
the outbound chat messages includes a wall-clock timestamp in the
source and is reduced here to which message is sent. -/
inductive LAction where
  | triggerUpdater
  | sendTriggered
  | sendSuccess
  | sendFailed (stderr : String)
  | sendException (detail : String)
  | logIgnored (text : String)
  deriving DecidableEq, Repr

/-- Python `str.strip()`: drop leading and trailing whitespace. -/
def pyStrip (s : String) : String :=
  String.mk (((s.data.dropWhile Char.isWhitespace).reverse.dropWhile
    Char.isWhitespace).reverse)

/-- Python `str.lower()` (over the ASCII range the listener compares). -/
def pyLower (s : String) : String :=
  String.mk (s.data.map Char.toLower)

/-- `msg.get("chat", {}).get("id")` for an update. -/
def msgChat (u : TgUpdate) : Option Int :=
  match u.message with
  | none => none
  | some m => m.chatId

/-- `msg.get("text", "").strip()` for an update. -/
def msgText (u : TgUpdate) : String :=
  pyStrip (match u.message with
  | none => ""
  | some m => m.text.getD "")

/-- The body of the listener's per-update loop (`listener.py` lines
79-110): advance the offset, drop messages from any other chat, and on
the (stripped, lowercased) text `/update_now` run the updater
subprocess and report its outcome.  `runRes` is the outcome of the
`subprocess.run` call: an exception, or a (returncode, stderr) pair. -/
def processUpdate (chatId : Int) (runRes : Except String (Int × String))
    (st : Option Int) (u : TgUpdate) : Option Int × List LAction :=
  let st' := some u.updateId
  let text := msgText u
  if msgChat u ≠ some chatId then (st', [])
  else if pyLower text == "/update_now" then
    match runRes with
    | .error m => (st', [.sendTriggered, .triggerUpdater, .sendException m])
    | .ok (rc, stderr) =>
      if rc == 0 then (st', [.sendTriggered, .triggerUpdater, .sendSuccess])
      else
        (st', [.sendTriggered, .triggerUpdater,
          .sendFailed (if stderr == "" then "Unknown error" else stderr)])
  else (st', [.logIgnored text])

/-- C7: when the freshly pulled image id equals the container's current
image id, the drift decision is not-stale and `update_container` issues
no stop, remove or create call for that container — its whole trace is
the pull followed by a single `up_to_date` notification. -/
theorem pull_id_equal_up_to_date
    (cfg : Config) (dryRun : Bool) (e : Ext) (now : Int)
    (st : List (String × Int)) (c : Container) (tag0 idv : String)
    (h1 : rateLimited cfg now st c.name = false)
    (h2 : c.name ∉ cfg.skipContainers)
    (h3 : c.imageTags.head? = some tag0)
    (h4 : e.imageIdResult = .ok idv)
    (h5 : e.pullResult (splitRepo tag0) = .ok idv) :
    isStale idv idv = false ∧
    update_container cfg dryRun e now st c =
      (record st c.name now,
        [.pullImage (splitRepo tag0) "latest",
          .notify (some c.name) .up_to_date none none]) := by
  refine ⟨by simp [isStale], ?_⟩
  simp [update_container, h1, h2, h3, h4, h5]

theorem pull_id_equal_up_to_date_witness :
    isStale "sha256:aaa" "sha256:aaa" = false ∧
    update_container ⟨3600, []⟩ false
        ⟨.ok "sha256:aaa", fun _ => .ok "sha256:aaa", .ok (), .ok (), .ok ()⟩
        100 [] ⟨"web", ["nginx:latest"], [], [], [], [], "always", "default"⟩ =
      (record [] "web" 100,
        [.pullImage (splitRepo "nginx:latest") "latest",
          .notify (some "web") .up_to_date none none]) :=
  pull_id_equal_up_to_date _ false _ 100 _ _ "nginx:latest" "sha256:aaa"
    (by decide) (by decide) (by decide) rfl rfl

/-- C8: a container skipped by the skip list still has its rate-limit
timestamp written for the current time, while a container skipped by
the rate limiter leaves the map untouched. -/
theorem skiplist_records_time_ratelimit_preserves
    (cfg : Config) (dryRun : Bool) (e : Ext) (now : Int)
    (st : List (String × Int)) (c : Container) :
    (rateLimited cfg now st c.name = true →
      update_container cfg dryRun e now st c = (st, [])) ∧
    (rateLimited cfg now st c.name = false →
      c.name ∈ cfg.skipContainers →
      update_container cfg dryRun e now st c =
        (record st c.name now, [.logSkip c.name]) ∧
      (record st c.name now).lookup c.name = some now) := by
  constructor
  · intro h
    simp [update_container, h]
  · intro h1 h2
    refine ⟨by simp [update_container, h1, h2], ?_⟩
    simp [record, List.lookup]

theorem skiplist_records_time_ratelimit_preserves_witness :
    (update_container ⟨3600, []⟩ false
        ⟨.ok "x", fun _ => .ok "x", .ok (), .ok (), .ok ()⟩
        100 [("web", 50)]
        ⟨"web", ["nginx:latest"], [], [], [], [], "always", "default"⟩ =
      ([("web", 50)], [])) ∧
    (update_container ⟨3600, ["db"]⟩ false
        ⟨.ok "x", fun _ => .ok "x", .ok (), .ok (), .ok ()⟩
        100 [] ⟨"db", ["postgres:14.2"], [], [], [], [], "always", "default"⟩ =
        (record [] "db" 100, [.logSkip "db"]) ∧
      (record [] "db" 100).lookup "db" = some 100) :=
  ⟨(skiplist_records_time_ratelimit_preserves ⟨3600, []⟩ false
      ⟨.ok "x", fun _ => .ok "x", .ok (), .ok (), .ok ()⟩ 100 [("web", 50)]
      ⟨"web", ["nginx:latest"], [], [], [], [], "always", "default"⟩).1
      (by decide),
   (skiplist_records_time_ratelimit_preserves ⟨3600, ["db"]⟩ false
      ⟨.ok "x", fun _ => .ok "x", .ok (), .ok (), .ok ()⟩ 100 []
      ⟨"db", ["postgres:14.2"], [], [], [], [], "always", "default"⟩).2
      (by decide) (by decide)⟩

/-- C9: the cleanup notification is emitted exactly when the prune call
succeeded and reclaimed a strictly positive number of bytes. -/
theorem cleanup_notify_iff_reclaimed_pos (r : Except String Nat) :
    (∃ s, Action.notify (some "Docker Images") .cleanup none (some s) ∈
        cleanup_unused_images r) ↔
    ∃ n, r = .ok n ∧ 0 < n := by
  cases r with
  | error m => simp [cleanup_unused_images]
  | ok n =>
    by_cases h : n > 0
    · simp [cleanup_unused_images, h]
    · simp [cleanup_unused_images, h]

/-- C1 counterexample: a workload pinned to `postgres:14.2` is not
short-circuited — when the pulled `postgres:latest` id differs from its
current image id, the executor runs (the container is stopped) and no
`pinned`-style skip occurs. -/
theorem pinned_tag_executor_invoked :
    Action.stopContainer "db" ∈
      (update_container ⟨3600, []⟩ false
        ⟨.ok "sha256:aaa", fun _ => .ok "sha256:bbb", .ok (), .ok (), .ok ()⟩
        100 []
        ⟨"db", ["postgres:14.2"], [], [], [], [], "always", "default"⟩).2 ∧
    Action.runContainer ⟨"postgres:latest", "db", "always", [], [], [], none⟩ ∈
      (update_container ⟨3600, []⟩ false
        ⟨.ok "sha256:aaa", fun _ => .ok "sha256:bbb", .ok (), .ok (), .ok ()⟩
        100 []
        ⟨"db", ["postgres:14.2"], [], [], [], [], "always", "default"⟩).2 := by
  decide

/-- C1 amended: the program has no pinned-tag guard at all — for every
workload that passes the rate-limit and skip filters, whatever its tag,
it pulls `<repo>:latest`, and whenever the pulled id differs from the
current id (and the calls succeed, outside dry-run) it replaces the
container with `<repo>:latest`. -/
theorem always_pulls_latest_no_pinned_guard
    (cfg : Config) (e : Ext) (now : Int) (st : List (String × Int))
    (c : Container) (tag0 cur newId : String)
    (h1 : rateLimited cfg now st c.name = false)
    (h2 : c.name ∉ cfg.skipContainers)
    (h3 : c.imageTags.head? = some tag0)
    (h4 : e.imageIdResult = .ok cur)
    (h5 : e.pullResult (splitRepo tag0) = .ok newId)
    (h6 : newId ≠ cur)
    (h7 : e.stopResult = .ok ())
    (h8 : e.removeResult = .ok ())
    (h9 : e.runResult = .ok ()) :
    update_container cfg false e now st c =
      (record st c.name now,
        [.pullImage (splitRepo tag0) "latest",
          .stopContainer c.name, .removeContainer c.name,
          .runContainer ⟨splitRepo tag0 ++ ":latest", c.name, "always",
            c.portBindings, c.mounts, c.env, none⟩,
          .notify (some c.name) .update (some newId) none]) := by
  simp [update_container, h1, h2, h3, h4, h5, h6, h7, h8, h9]

theorem always_pulls_latest_no_pinned_guard_witness :
    update_container ⟨3600, []⟩ false
        ⟨.ok "sha256:aaa", fun _ => .ok "sha256:bbb", .ok (), .ok (), .ok ()⟩
        100 [] ⟨"db", ["postgres:14.2"], [], [], [], [], "always", "default"⟩ =
      (record [] "db" 100,
        [.pullImage (splitRepo "postgres:14.2") "latest",
          .stopContainer "db", .removeContainer "db",
          .runContainer ⟨splitRepo "postgres:14.2" ++ ":latest", "db", "always",
            [], [], [], none⟩,
          .notify (some "db") .update (some "sha256:bbb") none]) :=
  always_pulls_latest_no_pinned_guard ⟨3600, []⟩
    ⟨.ok "sha256:aaa", fun _ => .ok "sha256:bbb", .ok (), .ok (), .ok ()⟩
    100 [] ⟨"db", ["postgres:14.2"], [], [], [], [], "always", "default"⟩
    "postgres:14.2" "sha256:aaa" "sha256:bbb"
    (by decide) (by decide) (by decide) rfl rfl (by decide) rfl rfl rfl

/-- C4 counterexample: a standalone workload running with restart
policy `unless-stopped` is recreated with restart policy `always`: the
recreated unit does not preserve the original runtime configuration. -/
theorem restart_policy_not_preserved :
    Action.runContainer ⟨"nginx:latest", "web", "always",
        [("80/tcp", "8080")], ["/data"], ["A=1"], none⟩ ∈
      (update_container ⟨3600, []⟩ false
        ⟨.ok "sha256:aaa", fun _ => .ok "sha256:bbb", .ok (), .ok (), .ok ()⟩
        100 []
        ⟨"web", ["nginx:latest"], [], [("80/tcp", "8080")], ["A=1"],
          ["/data"], "unless-stopped", "mynet"⟩).2 ∧
    "always" ≠ "unless-stopped" := by
  decide

/-- C4 amended: every `client.containers.run` call the effective code
issues carries the old container's ports, environment and mounts
verbatim and targets `<repo>:latest`, but hard-codes the restart policy
to `always` and passes no network, whatever the original values were. -/
theorem recreate_spec_fields
    (cfg : Config) (dryRun : Bool) (e : Ext) (now : Int)
    (st : List (String × Int)) (c : Container) (spec : RunSpec)
    (h : Action.runContainer spec ∈ (update_container cfg dryRun e now st c).2) :
    spec.name = c.name ∧ spec.ports = c.portBindings ∧ spec.env = c.env ∧
    spec.volumes = c.mounts ∧ spec.restartPolicy = "always" ∧
    spec.network = none ∧
    ∃ t, c.imageTags.head? = some t ∧ spec.image = splitRepo t ++ ":latest" := by
  unfold update_container at h
  by_cases hrl : rateLimited cfg now st c.name
  · simp [hrl] at h
  by_cases hsk : c.name ∈ cfg.skipContainers
  · simp [hrl, hsk] at h
  cases him : e.imageIdResult with
  | error m => simp [hrl, hsk, him, notifyErr] at h
  | ok cur =>
    cases htag : c.imageTags.head? with
    | none => simp [hrl, hsk, him, htag, notifyErr] at h
    | some t =>
      cases hpl : e.pullResult (splitRepo t) with
      | error m => simp [hrl, hsk, him, htag, hpl, notifyErr] at h
      | ok newId =>
        by_cases heq : (newId == cur) = true
        · simp [hrl, hsk, him, htag, hpl, heq] at h
        by_cases hdr : dryRun = true
        · simp [hrl, hsk, him, htag, hpl, heq, hdr] at h
        cases hst : e.stopResult with
        | error m => simp [hrl, hsk, him, htag, hpl, heq, hdr, hst, notifyErr] at h
        | ok u =>
          cases hrm : e.removeResult with
          | error m =>
            simp [hrl, hsk, him, htag, hpl, heq, hdr, hst, hrm, notifyErr] at h
          | ok u' =>
            cases hrn : e.runResult with
            | error m =>
              simp [hrl, hsk, him, htag, hpl, heq, hdr, hst, hrm, hrn,
                notifyErr] at h
              subst h
              exact ⟨rfl, rfl, rfl, rfl, rfl, rfl, t, rfl, rfl⟩
            | ok u'' =>
              simp [hrl, hsk, him, htag, hpl, heq, hdr, hst, hrm, hrn,
                notifyErr] at h
              subst h
              exact ⟨rfl, rfl, rfl, rfl, rfl, rfl, t, rfl, rfl⟩

theorem recreate_spec_fields_witness :
    let spec : RunSpec := ⟨"nginx:latest", "web", "always",
      [("80/tcp", "8080")], ["/data"], ["A=1"], none⟩
    let c : Container := ⟨"web", ["nginx:latest"], [], [("80/tcp", "8080")],
      ["A=1"], ["/data"], "unless-stopped", "mynet"⟩
    spec.name = c.name ∧ spec.ports = c.portBindings ∧ spec.env = c.env ∧
    spec.volumes = c.mounts ∧ spec.restartPolicy = "always" ∧
    spec.network = none ∧
    ∃ t, c.imageTags.head? = some t ∧ spec.image = splitRepo t ++ ":latest" :=
  recreate_spec_fields ⟨3600, []⟩ false
    ⟨.ok "sha256:aaa", fun _ => .ok "sha256:bbb", .ok (), .ok (), .ok ()⟩
    100 [] _ _ (by decide)

/-- Recognizer for the prune call. -/
def isPrune : Action → Bool
  | .pruneImages => true
  | _ => false

lemma isPrune_eq (a : Action) : isPrune a = true ↔ a = Action.pruneImages := by
  cases a <;> simp [isPrune]

/-- Every action `update_container` emits: it is never a prune, and in
dry-run mode it is never a container mutation either. -/
lemma uc_action_no_prune_dry_benign
    (cfg : Config) (dry : Bool) (e : Ext) (now : Int)
    (st : List (String × Int)) (c : Container) (a : Action)
    (h : a ∈ (update_container cfg dry e now st c).2) :
    a ≠ Action.pruneImages ∧ (dry = true → mutatesContainers a = false) := by
  unfold update_container at h
  by_cases hrl : rateLimited cfg now st c.name
  · simp [hrl] at h
  by_cases hsk : c.name ∈ cfg.skipContainers
  · simp [hrl, hsk] at h
    subst h
    exact ⟨by simp, fun _ => rfl⟩
  cases him : e.imageIdResult with
  | error m =>
    simp [hrl, hsk, him, notifyErr] at h
    subst h
    exact ⟨by simp, fun _ => rfl⟩
  | ok cur =>
    cases htag : c.imageTags.head? with
    | none =>
      simp [hrl, hsk, him, htag, notifyErr] at h
      subst h
      exact ⟨by simp, fun _ => rfl⟩
    | some t =>
      cases hpl : e.pullResult (splitRepo t) with
      | error m =>
        simp [hrl, hsk, him, htag, hpl, notifyErr] at h
        rcases h with h | h <;> subst h <;> exact ⟨by simp, fun _ => rfl⟩
      | ok newId =>
        by_cases hup : (newId == cur) = true
        · simp [hrl, hsk, him, htag, hpl, hup] at h
          rcases h with h | h <;> subst h <;> exact ⟨by simp, fun _ => rfl⟩
        by_cases hdr : dry = true
        · simp [hrl, hsk, him, htag, hpl, hup, hdr] at h
          rcases h with h | h <;> subst h <;> exact ⟨by simp, fun _ => rfl⟩
        cases hst : e.stopResult with
        | error m =>
          simp [hrl, hsk, him, htag, hpl, hup, hdr, hst, notifyErr] at h
          rcases h with h | h | h <;> subst h <;>
            exact ⟨by simp, fun hd => absurd hd hdr⟩
        | ok u =>
          cases hrm : e.removeResult with
          | error m =>
            simp [hrl, hsk, him, htag, hpl, hup, hdr, hst, hrm, notifyErr] at h
            rcases h with h | h | h | h <;> subst h <;>
              exact ⟨by simp, fun hd => absurd hd hdr⟩
          | ok u' =>
            cases hrn : e.runResult with
            | error m =>
              simp [hrl, hsk, him, htag, hpl, hup, hdr, hst, hrm, hrn,
                notifyErr] at h
              rcases h with h | h | h | h | h <;> subst h <;>
                exact ⟨by simp, fun hd => absurd hd hdr⟩
            | ok u'' =>
              simp [hrl, hsk, him, htag, hpl, hup, hdr, hst, hrm, hrn,
                notifyErr] at h
              rcases h with h | h | h | h | h <;> subst h <;>
                exact ⟨by simp, fun hd => absurd hd hdr⟩

/-- Lifts `uc_action_no_prune_dry_benign` over the per-pass loop. -/
lemma runContainers_action_no_prune_dry_benign
    (cfg : Config) (dry : Bool) (now : Int) :
    ∀ (items : List (Container × Ext)) (st : List (String × Int)) (a : Action),
      a ∈ (runContainers cfg dry now st items).2 →
      a ≠ Action.pruneImages ∧ (dry = true → mutatesContainers a = false) := by
  intro items
  induction items with
  | nil =>
    intro st a h
    simp [runContainers] at h
  | cons p rest ih =>
    intro st a h
    obtain ⟨c, e⟩ := p
    simp only [runContainers] at h
    rcases List.mem_append.mp h with h | h
    · exact uc_action_no_prune_dry_benign cfg dry e now st c a h
    · exact ih _ a h

/-- The actions of `cleanup_unused_images`: one prune, possibly one
notification. -/
lemma cleanup_mem (r : Except String Nat) (a : Action)
    (h : a ∈ cleanup_unused_images r) :
    mutatesContainers a = false := by
  unfold cleanup_unused_images at h
  rcases r with m | n
  · simp at h
    rcases h with h | h <;> subst h <;> rfl
  · by_cases hp : n > 0
    · simp [hp] at h
      rcases h with h | h <;> subst h <;> rfl
    · simp [hp] at h
      subst h
      rfl

lemma cleanup_prune_mem (r : Except String Nat) :
    Action.pruneImages ∈ cleanup_unused_images r := by
  unfold cleanup_unused_images
  rcases r with m | n
  · simp
  · by_cases hp : n > 0 <;> simp [hp]

lemma cleanup_countP_prune (r : Except String Nat) :
    (cleanup_unused_images r).countP isPrune = 1 := by
  unfold cleanup_unused_images
  rcases r with m | n
  · simp [List.countP_cons, isPrune]
  · by_cases hp : n > 0 <;> simp [hp, List.countP_cons, isPrune]

/-- C3 counterexample: in dry-run mode, a pass over a single stale
workload still issues an image pull, and the pass still issues the
image prune call — both contradicting "never issues any image pull for
mutation or image prune" while dry-run. -/
theorem dry_run_still_pulls_and_prunes :
    Action.pullImage "nginx" "latest" ∈
      (runPass ⟨3600, []⟩ true 100 []
        [(⟨"web", ["nginx:latest"], [], [], [], [], "always", "default"⟩,
          ⟨.ok "sha256:aaa", fun _ => .ok "sha256:bbb", .ok (), .ok (), .ok ()⟩)]
        (.ok 5)).2 ∧
    Action.pruneImages ∈
      (runPass ⟨3600, []⟩ true 100 []
        [(⟨"web", ["nginx:latest"], [], [], [], [], "always", "default"⟩,
          ⟨.ok "sha256:aaa", fun _ => .ok "sha256:bbb", .ok (), .ok (), .ok ()⟩)]
        (.ok 5)).2 := by
  decide

/-- C3 amended: a dry-run pass issues no container stop/remove/create
and no orchestrator/compose subprocess call (the decision logic still
runs and the would-be update is notified), but it does still pull
images for the staleness decision and still issues the prune call at
the end of the pass. -/
theorem dry_run_pass_no_container_mutation
    (cfg : Config) (now : Int) (st : List (String × Int))
    (items : List (Container × Ext)) (pruneRes : Except String Nat) :
    ((runPass cfg true now st items pruneRes).2.all
      (fun a => !mutatesContainers a)) = true ∧
    Action.pruneImages ∈ (runPass cfg true now st items pruneRes).2 := by
  constructor
  · rw [List.all_eq_true]
    intro a ha
    simp only [runPass] at ha
    rcases List.mem_append.mp ha with h | h
    · have hb :=
        (runContainers_action_no_prune_dry_benign cfg true now items st a h).2 rfl
      simp [hb]
    · simp [cleanup_mem pruneRes a h]
  · simp only [runPass]
    exact List.mem_append.mpr (Or.inr (cleanup_prune_mem pruneRes))

/-- C5 counterexample: a pass that updates nothing (it has no workloads
at all) still invokes the Cleanup Agent's prune call. -/
theorem cleanup_invoked_without_updates :
    Action.pruneImages ∈ (runPass ⟨3600, []⟩ false 100 [] [] (.ok 0)).2 := by
  decide

/-- C5 amended: the Cleanup Agent is invoked exactly once per pass,
unconditionally — whether or not any workload was updated. -/
theorem cleanup_exactly_once_per_pass
    (cfg : Config) (dry : Bool) (now : Int) (st : List (String × Int))
    (items : List (Container × Ext)) (pruneRes : Except String Nat) :
    ((runPass cfg dry now st items pruneRes).2.countP isPrune) = 1 := by
  simp only [runPass]
  rw [List.countP_append]
  have h0 : (runContainers cfg dry now st items).2.countP isPrune = 0 := by
    rw [List.countP_eq_zero]
    intro a ha
    rw [isPrune_eq]
    exact (runContainers_action_no_prune_dry_benign cfg dry now items st a ha).1
  rw [h0, cleanup_countP_prune]

/-- C2: the first `update_container` definition classifies a workload
with the stack label as orchestrator-managed (`classify` embeds its
branch order), but that definition is shadowed by the second one, so
the running program handles the same stack-labelled workload as a
standalone container — stop, remove, recreate — and never issues the
`docker service update` subprocess call. -/
theorem stack_labeled_handled_standalone :
    classify [("com.docker.stack.namespace", "mystack")] =
      Topology.swarm "mystack" ∧
    (update_container ⟨3600, []⟩ false
        ⟨.ok "sha256:aaa", fun _ => .ok "sha256:bbb", .ok (), .ok (), .ok ()⟩
        100 []
        ⟨"web", ["nginx:latest"], [("com.docker.stack.namespace", "mystack")],
          [], [], [], "always", "default"⟩).2 =
      [.pullImage "nginx" "latest", .stopContainer "web",
        .removeContainer "web",
        .runContainer ⟨"nginx:latest", "web", "always", [], [], [], none⟩,
        .notify (some "web") .update (some "sha256:bbb") none] ∧
    Action.serviceUpdate "nginx:latest" "mystack_web" ∉
      (update_container ⟨3600, []⟩ false
        ⟨.ok "sha256:aaa", fun _ => .ok "sha256:bbb", .ok (), .ok (), .ok ()⟩
        100 []
        ⟨"web", ["nginx:latest"], [("com.docker.stack.namespace", "mystack")],
          [], [], [], "always", "default"⟩).2 := by
  decide

/-- Splitting a pass at any point: the loop on `xs ++ ys` is the loop
on `xs` followed by the loop on `ys` from the resulting state. -/
lemma runContainers_append (cfg : Config) (dry : Bool) (now : Int)
    (xs ys : List (Container × Ext)) :
    ∀ st, runContainers cfg dry now st (xs ++ ys) =
      ((runContainers cfg dry now (runContainers cfg dry now st xs).1 ys).1,
        (runContainers cfg dry now st xs).2 ++
          (runContainers cfg dry now (runContainers cfg dry now st xs).1 ys).2) := by
  induction xs with
  | nil =>
    intro st
    simp [runContainers]
  | cons p rest ih =>
    intro st
    obtain ⟨c, e⟩ := p
    simp only [List.cons_append, runContainers, List.append_eq, ih,
      List.append_assoc]

/-- Whenever `ucErr` reports a caught error, the corresponding error
notification naming the container is in that container's trace. -/
lemma ucErr_mem_notify (cfg : Config) (dry : Bool) (e : Ext) (now : Int)
    (st : List (String × Int)) (c : Container) (d : String)
    (h : ucErr cfg dry e now st c = some d) :
    notifyErr c.name d ∈ (update_container cfg dry e now st c).2 := by
  unfold ucErr at h
  unfold update_container
  by_cases hrl : rateLimited cfg now st c.name
  · simp [hrl] at h
  by_cases hsk : c.name ∈ cfg.skipContainers
  · simp [hrl, hsk] at h
  cases him : e.imageIdResult with
  | error m =>
    simp [hrl, hsk, him] at h
    subst h
    simp [hrl, hsk, him]
  | ok cur =>
    cases htag : c.imageTags.head? with
    | none =>
      simp [hrl, hsk, him, htag] at h
      subst h
      simp [hrl, hsk, him, htag]
    | some t =>
      cases hpl : e.pullResult (splitRepo t) with
      | error m =>
        simp [hrl, hsk, him, htag, hpl] at h
        subst h
        simp [hrl, hsk, him, htag, hpl]
      | ok newId =>
        by_cases hup : (newId == cur) = true
        · simp [hrl, hsk, him, htag, hpl, hup] at h
        by_cases hdr : dry = true
        · simp [hrl, hsk, him, htag, hpl, hup, hdr] at h
        cases hst : e.stopResult with
        | error m =>
          simp [hrl, hsk, him, htag, hpl, hup, hdr, hst] at h
          subst h
          simp [hrl, hsk, him, htag, hpl, hup, hdr, hst]
        | ok u =>
          cases hrm : e.removeResult with
          | error m =>
            simp [hrl, hsk, him, htag, hpl, hup, hdr, hst, hrm] at h
            subst h
            simp [hrl, hsk, him, htag, hpl, hup, hdr, hst, hrm]
          | ok u' =>
            cases hrn : e.runResult with
            | error m =>
              simp [hrl, hsk, him, htag, hpl, hup, hdr, hst, hrm, hrn] at h
              subst h
              simp [hrl, hsk, him, htag, hpl, hup, hdr, hst, hrm, hrn]
            | ok u'' =>
              simp [hrl, hsk, him, htag, hpl, hup, hdr, hst, hrm, hrn] at h

/-- C6: an error caught while processing one workload is notified with
that workload's name inside the pass trace, and the pass trace still
decomposes as the workloads before it, this workload, and the workloads
after it — so the loop proceeds past the failure. -/
theorem errors_contained_pass_continues
    (cfg : Config) (dry : Bool) (now : Int) (st : List (String × Int))
    (pre post : List (Container × Ext)) (c : Container) (e : Ext) (d : String)
    (h : ucErr cfg dry e now (runContainers cfg dry now st pre).1 c = some d) :
    notifyErr c.name d ∈
      (runContainers cfg dry now st (pre ++ (c, e) :: post)).2 ∧
    (runContainers cfg dry now st (pre ++ (c, e) :: post)).2 =
      (runContainers cfg dry now st pre).2 ++
        ((update_container cfg dry e now
            (runContainers cfg dry now st pre).1 c).2 ++
          (runContainers cfg dry now
            (update_container cfg dry e now
              (runContainers cfg dry now st pre).1 c).1 post).2) := by
  have h2 : (runContainers cfg dry now st (pre ++ (c, e) :: post)).2 =
      (runContainers cfg dry now st pre).2 ++
        ((update_container cfg dry e now
            (runContainers cfg dry now st pre).1 c).2 ++
          (runContainers cfg dry now
            (update_container cfg dry e now
              (runContainers cfg dry now st pre).1 c).1 post).2) := by
    rw [runContainers_append cfg dry now pre ((c, e) :: post) st]
    simp only [runContainers]
  refine ⟨?_, h2⟩
  rw [h2]
  exact List.mem_append.mpr (Or.inr (List.mem_append.mpr
    (Or.inl (ucErr_mem_notify cfg dry e now
      (runContainers cfg dry now st pre).1 c d h))))

theorem errors_contained_pass_continues_witness :
    notifyErr "web" "Image pull failed: network down" ∈
      (runContainers ⟨3600, []⟩ false 100 []
        ([] ++
          (⟨"web", ["nginx:latest"], [], [], [], [], "always", "default"⟩,
            ⟨.ok "sha256:aaa", fun _ => .error "network down",
              .ok (), .ok (), .ok ()⟩) ::
          [(⟨"db", ["postgres:14.2"], [], [], [], [], "always", "default"⟩,
            ⟨.ok "sha256:ccc", fun _ => .ok "sha256:ccc",
              .ok (), .ok (), .ok ()⟩)])).2 :=
  (errors_contained_pass_continues ⟨3600, []⟩ false 100 [] []
    [(⟨"db", ["postgres:14.2"], [], [], [], [], "always", "default"⟩,
      ⟨.ok "sha256:ccc", fun _ => .ok "sha256:ccc", .ok (), .ok (), .ok ()⟩)]
    ⟨"web", ["nginx:latest"], [], [], [], [], "always", "default"⟩
    ⟨.ok "sha256:aaa", fun _ => .error "network down", .ok (), .ok (), .ok ()⟩
    "Image pull failed: network down" (by decide)).1

/-- C10 counterexample: a message whose text is `" /update_now"` (with
a leading space) from the configured chat does trigger the updater,
although that text does not case-insensitively equal `/update_now`. -/
theorem trigger_with_padded_text :
    LAction.triggerUpdater ∈
      (processUpdate 42 (.ok (0, "")) none
        ⟨7, some ⟨some 42, some " /update_now"⟩⟩).2 ∧
    ¬(pyLower " /update_now" = pyLower "/update_now") := by
  decide

/-- C10 amended: the listener triggers the updater subprocess exactly
when the message's chat id equals the configured chat id and the
message text, stripped of surrounding whitespace, case-insensitively
equals `/update_now`; a message from any other chat id produces no
action at all beyond advancing the update offset. -/
theorem trigger_iff_chat_and_text
    (chatId : Int) (runRes : Except String (Int × String))
    (st : Option Int) (u : TgUpdate) :
    (LAction.triggerUpdater ∈ (processUpdate chatId runRes st u).2 ↔
      msgChat u = some chatId ∧ pyLower (msgText u) = "/update_now") ∧
    (msgChat u ≠ some chatId →
      processUpdate chatId runRes st u = (some u.updateId, [])) := by
  unfold processUpdate
  by_cases hc : msgChat u = some chatId
  · refine ⟨?_, fun hn => absurd hc hn⟩
    by_cases ht : (pyLower (msgText u) == "/update_now") = true
    · rcases runRes with m | ⟨rc, stderr⟩
      · simp [hc, ht]
        exact eq_of_beq ht
      · by_cases hrc : (rc == 0) = true <;> simp [hc, ht, hrc] <;>
          exact eq_of_beq ht
    · simp [hc, ht]
      intro hl
      exact absurd (by simp [hl]) ht
  · refine ⟨?_, fun _ => by simp [hc]⟩
    simp [hc]

theorem trigger_iff_chat_and_text_witness :
    processUpdate 42 (.ok (0, "")) none
      ⟨7, some ⟨some 99, some "/update_now"⟩⟩ = (some 7, []) :=
  (trigger_iff_chat_and_text 42 (.ok (0, "")) none
    ⟨7, some ⟨some 99, some "/update_now"⟩⟩).2 (by decide)

end DockerUpdate
